import Mathlib

/-
Verification of the replenishment calculation-and-allocation engine in
`backend/app/services/replenishment_service.py`.

The definitions below are a shallow embedding of the Python source:
 - real-valued quantities (Python floats sourced from SQL numerics) are
   modelled as rationals;
 - Python ints are modelled as `Int` (they are unbounded and signed; in
   particular `inventory.quantity_on_hand` is a signed `Integer` column);
 - per-row quantities that the code guarantees non-negative by construction
   (`requested_ship_qty` entering the allocator) are modelled as `Nat`.
-/

/-- One entry of `sku_requests[sku_id]` in `run_replenishment_calculation`:
a plan row participating in warehouse allocation for one product.
`store` stands for the row identity (store_id), `requested` for
`requested_ship_qty` (a positive int when the row is tracked), `priority`
for the unrounded `priority_score` used as the sort key. -/
structure PlanReq where
  store : Nat
  requested : Nat
  priority : ℚ
deriving DecidableEq, Repr

/-- `sum(r["plan"].requested_ship_qty for r in requests)`. -/
def totalReq (reqs : List PlanReq) : Nat :=
  (reqs.map PlanReq.requested).sum

/-- The sort relation of `requests.sort(key=lambda r: r["priority_score"], reverse=True)`:
descending by priority score.  Python's sort is stable, and `List.insertionSort`
with this relation is the stable descending sort (an element placed before a
later element exactly when its priority is ≥, so ties keep input order). -/
def priorityGE (a b : PlanReq) : Prop := b.priority ≤ a.priority

instance : DecidableRel priorityGE :=
  fun a b => inferInstanceAs (Decidable (b.priority ≤ a.priority))

/-- The in-place `requests.sort(key=..., reverse=True)`. -/
def sortReqs (reqs : List PlanReq) : List PlanReq :=
  List.insertionSort priorityGE reqs

/-- The first allocation pass (source lines 457-463):
`remaining = wh_available`; for each request, `allocated = min(requested, remaining)`,
`remaining -= allocated`, and `break` once `remaining <= 0`.  Rows after the
break keep their default `allocated_ship_qty = requested_ship_qty`
(set at plan construction, line 431). -/
def allocPass1 : Int → List PlanReq → List (PlanReq × Int)
  | _, [] => []
  | rem, r :: rs =>
    let a := min (r.requested : Int) rem
    if rem - a ≤ 0 then
      (r, a) :: rs.map (fun s => (s, (s.requested : Int)))
    else
      (r, a) :: allocPass1 (rem - a) rs

/-- The tail of the cleanup pass (source lines 469-478): for each index `i > 0`,
if the running total through index `i` exceeds `wh_available`, the row is
reassigned `max(0, wh_available - sum of allocations before i)`; the sums read
the already-updated values.  `pfx` is the sum of the updated allocations of the
rows before the current one. -/
def fixTail (W : Int) : Int → List (PlanReq × Int) → List (PlanReq × Int)
  | _, [] => []
  | pfx, (r, a) :: rest =>
    if W < pfx + a then
      (r, max 0 (W - pfx)) :: fixTail W (pfx + max 0 (W - pfx)) rest
    else
      (r, a) :: fixTail W (pfx + a) rest

/-- The cleanup pass (source lines 469-478); the row at index 0 is never
modified (`i > 0` guard). -/
def allocPass3 (W : Int) : List (PlanReq × Int) → List (PlanReq × Int)
  | [] => []
  | (r, a) :: rest => (r, a) :: fixTail W a rest

/-- Reference allocation from the spec (§4.6): each store in turn receives
`min(requested_ship_qty, remaining)` with `remaining` decremented; once
`remaining` reaches 0 every subsequent store receives 0. -/
def greedyAlloc : Int → List PlanReq → List (PlanReq × Int)
  | _, [] => []
  | rem, r :: rs =>
    let a := min (r.requested : Int) rem
    (r, a) :: greedyAlloc (rem - a) rs

/-- The per-product warehouse allocation of `run_replenishment_calculation`
(source lines 449-478): if `total_requested > wh_available` the requests are
sorted by priority descending and run through the two passes; otherwise every
row keeps its default full allocation. -/
def allocateProduct (W : Int) (reqs : List PlanReq) : List (PlanReq × Int) :=
  if (totalReq reqs : Int) > W then
    allocPass3 W (allocPass1 W (sortReqs reqs))
  else
    reqs.map (fun r => (r, (r.requested : Int)))

/-- The allocation the spec describes (§4.6), written from the spec's words:
no contention when `Σ requested_ship_qty ≤ wh_on_hand_units`, otherwise the
greedy assignment over the priority-sorted stores. -/
def specAllocate (W : Int) (reqs : List PlanReq) : List (PlanReq × Int) :=
  if (totalReq reqs : Int) ≤ W then
    reqs.map (fun r => (r, (r.requested : Int)))
  else
    greedyAlloc W (sortReqs reqs)

-- ----------------------------------------------------------------
-- Allocator lemmas
-- ----------------------------------------------------------------

lemma greedyAlloc_zero (rs : List PlanReq) :
    greedyAlloc 0 rs = rs.map (fun s => (s, (0 : Int))) := by
  induction rs with
  | nil => rfl
  | cons r rs ih =>
      have hmin : min (r.requested : Int) 0 = 0 := by
        have : (0 : Int) ≤ (r.requested : Int) := Int.natCast_nonneg _
        omega
      simp [greedyAlloc, hmin, ih]

lemma fixTail_saturated (W : Int) (rs : List PlanReq) :
    fixTail W W (rs.map (fun s => (s, (s.requested : Int)))) =
      rs.map (fun s => (s, (0 : Int))) := by
  induction rs with
  | nil => rfl
  | cons r rs ih =>
      by_cases h : W < W + (r.requested : Int)
      · simp only [List.map_cons, fixTail, if_pos h]
        have hmax : max (0 : Int) (W - W) = 0 := by omega
        rw [hmax]
        have : W + (0 : Int) = W := by omega
        rw [this, ih]
      · have hq : (r.requested : Int) = 0 := by
          have : (0 : Int) ≤ (r.requested : Int) := Int.natCast_nonneg _
          omega
        simp only [List.map_cons, fixTail, hq, add_zero, lt_irrefl, if_false, ih]

lemma fixTail_pass1 (rs : List PlanReq) :
    ∀ (W rem : Int), fixTail W (W - rem) (allocPass1 rem rs) = greedyAlloc rem rs := by
  induction rs with
  | nil => intro W rem; rfl
  | cons r rs ih =>
      intro W rem
      by_cases hbr : rem - min (r.requested : Int) rem ≤ 0
      · -- the loop breaks here: the head absorbed all remaining stock
        have ha : min (r.requested : Int) rem = rem := by
          rcases le_total (r.requested : Int) rem with h | h
          · have := min_eq_left h; omega
          · exact min_eq_right h
        simp only [allocPass1, ha, if_pos (by omega : rem - rem ≤ (0 : Int))]
        simp only [fixTail, greedyAlloc, ha]
        have hcond : ¬ (W < W - rem + rem) := by omega
        rw [if_neg hcond]
        have h1 : W - rem + rem = W := by omega
        have h2 : rem - rem = (0 : Int) := by omega
        rw [h1, h2, fixTail_saturated, greedyAlloc_zero]
      · -- no break: the head got its full request and stock remains
        have ha : min (r.requested : Int) rem = (r.requested : Int) := by
          rcases le_total (r.requested : Int) rem with h | h
          · exact min_eq_left h
          · have := min_eq_right h; omega
        simp only [allocPass1, ha, if_neg (by omega : ¬ rem - (r.requested : Int) ≤ (0 : Int))]
        simp only [fixTail, greedyAlloc, ha]
        have hcond : ¬ (W < W - rem + (r.requested : Int)) := by omega
        rw [if_neg hcond]
        have h1 : W - rem + (r.requested : Int) = W - (rem - (r.requested : Int)) := by omega
        rw [h1, ih]

/-- The two passes of the source (break-early loop followed by the cleanup
loop) compute exactly the reference greedy allocation, for every warehouse
level, positive or not. -/
theorem passes_eq_greedy (W : Int) (rs : List PlanReq) :
    allocPass3 W (allocPass1 W rs) = greedyAlloc W rs := by
  cases rs with
  | nil => rfl
  | cons r rs =>
      by_cases hbr : W - min (r.requested : Int) W ≤ 0
      · have ha : min (r.requested : Int) W = W := by
          rcases le_total (r.requested : Int) W with h | h
          · have := min_eq_left h; omega
          · exact min_eq_right h
        simp only [allocPass1, ha, if_pos (by omega : W - W ≤ (0 : Int))]
        simp only [allocPass3, greedyAlloc, ha]
        have h2 : W - W = (0 : Int) := by omega
        rw [fixTail_saturated, h2, greedyAlloc_zero]
      · simp only [allocPass1, if_neg hbr]
        simp only [allocPass3, greedyAlloc]
        have h1 : W - (W - min (r.requested : Int) W) = min (r.requested : Int) W := by omega
        have := fixTail_pass1 rs W (W - min (r.requested : Int) W)
        rw [h1] at this
        rw [this]

lemma greedyAlloc_map_fst (rs : List PlanReq) :
    ∀ rem : Int, (greedyAlloc rem rs).map Prod.fst = rs := by
  induction rs with
  | nil => intro rem; rfl
  | cons r rs ih => intro rem; simp [greedyAlloc, ih]

lemma greedyAlloc_full (rs : List PlanReq) :
    ∀ W : Int, (totalReq rs : Int) ≤ W →
      greedyAlloc W rs = rs.map (fun s => (s, (s.requested : Int))) := by
  induction rs with
  | nil => intro W _; rfl
  | cons r rs ih =>
      intro W hW
      have htot : (totalReq (r :: rs) : Int) =
          (r.requested : Int) + (totalReq rs : Int) := by
        simp [totalReq]
      have h1 : (r.requested : Int) ≤ W := by
        have : (0 : Int) ≤ (totalReq rs : Int) := Int.natCast_nonneg _
        omega
      have hmin : min (r.requested : Int) W = (r.requested : Int) := min_eq_left h1
      have h2 : (totalReq rs : Int) ≤ W - (r.requested : Int) := by omega
      simp only [greedyAlloc, hmin, List.map_cons]
      rw [ih _ h2]

lemma greedyAlloc_bounds (rs : List PlanReq) :
    ∀ W : Int, 0 ≤ W → ∀ p ∈ greedyAlloc W rs,
      0 ≤ p.2 ∧ p.2 ≤ (p.1.requested : Int) := by
  induction rs with
  | nil => intro W _ p hp; cases hp
  | cons r rs ih =>
      intro W hW p hp
      have hq : (0 : Int) ≤ (r.requested : Int) := Int.natCast_nonneg _
      simp only [greedyAlloc, List.mem_cons] at hp
      rcases hp with hp | hp
      · subst hp
        constructor
        · exact le_min hq hW
        · exact min_le_left _ _
      · have hrem : (0 : Int) ≤ W - min (r.requested : Int) W := by
          have := min_le_right (r.requested : Int) W
          omega
        exact ih _ hrem p hp

lemma greedyAlloc_sum (rs : List PlanReq) :
    ∀ W : Int, 0 ≤ W → ((greedyAlloc W rs).map Prod.snd).sum ≤ W := by
  induction rs with
  | nil => intro W hW; simpa [greedyAlloc] using hW
  | cons r rs ih =>
      intro W hW
      have hrem : (0 : Int) ≤ W - min (r.requested : Int) W := by
        have := min_le_right (r.requested : Int) W
        omega
      have := ih _ hrem
      simp only [greedyAlloc, List.map_cons, List.sum_cons]
      omega

lemma greedyAlloc_mono (rs : List PlanReq) :
    ∀ W W' : Int, W ≤ W' →
      List.Forall₂ (fun p q : PlanReq × Int => p.1 = q.1 ∧ p.2 ≤ q.2)
        (greedyAlloc W rs) (greedyAlloc W' rs) := by
  induction rs with
  | nil => intro W W' _; exact List.Forall₂.nil
  | cons r rs ih =>
      intro W W' hWW
      have hmin : min (r.requested : Int) W ≤ min (r.requested : Int) W' :=
        min_le_min le_rfl hWW
      have hrem : W - min (r.requested : Int) W ≤ W' - min (r.requested : Int) W' := by
        rcases le_total (r.requested : Int) W with h | h
        · rw [min_eq_left h, min_eq_left (le_trans h hWW)]
          omega
        · rw [min_eq_right h]
          have h1 := min_le_left (r.requested : Int) W'
          have h2 := min_le_right (r.requested : Int) W'
          omega
      exact List.Forall₂.cons ⟨rfl, hmin⟩ (ih _ _ hrem)

lemma greedyAlloc_mem_mono (rs : List PlanReq) :
    ∀ W W' : Int, W ≤ W' → (rs.map PlanReq.store).Nodup →
      ∀ (r : PlanReq) (a a' : Int),
        (r, a) ∈ greedyAlloc W rs → (r, a') ∈ greedyAlloc W' rs → a ≤ a' := by
  induction rs with
  | nil => intro W W' _ _ r a a' h _; cases h
  | cons s rs ih =>
      intro W W' hWW hnd r a a' h1 h2
      have hnd2 := hnd
      rw [List.map_cons, List.nodup_cons] at hnd2
      have hrem : W - min (s.requested : Int) W ≤ W' - min (s.requested : Int) W' := by
        rcases le_total (s.requested : Int) W with h | h
        · rw [min_eq_left h, min_eq_left (le_trans h hWW)]
          omega
        · rw [min_eq_right h]
          have h3 := min_le_left (s.requested : Int) W'
          have h4 := min_le_right (s.requested : Int) W'
          omega
      simp only [greedyAlloc, List.mem_cons] at h1 h2
      rcases h1 with h1 | h1
      · rcases h2 with h2 | h2
        · have ha : a = min (s.requested : Int) W := by
            have := congrArg Prod.snd h1; simpa using this
          have ha' : a' = min (s.requested : Int) W' := by
            have := congrArg Prod.snd h2; simpa using this
          rw [ha, ha']
          exact min_le_min le_rfl hWW
        · -- r equals the head but also appears in the tail: impossible by Nodup
          have hr : r = s := by
            have := congrArg Prod.fst h1; simpa using this
          have hmem : r ∈ rs := by
            have := congrArg (List.map Prod.fst)
              (rfl : greedyAlloc (W' - min (s.requested : Int) W') rs =
                greedyAlloc (W' - min (s.requested : Int) W') rs)
            have hx : r ∈ (greedyAlloc (W' - min (s.requested : Int) W') rs).map Prod.fst :=
              List.mem_map_of_mem Prod.fst h2
            rwa [greedyAlloc_map_fst] at hx
          exact absurd (List.mem_map_of_mem PlanReq.store (hr ▸ hmem)) (hr ▸ hnd2.1)
      · rcases h2 with h2 | h2
        · have hr : r = s := by
            have := congrArg Prod.fst h2; simpa using this
          have hmem : r ∈ rs := by
            have hx : r ∈ (greedyAlloc (W - min (s.requested : Int) W) rs).map Prod.fst :=
              List.mem_map_of_mem Prod.fst h1
            rwa [greedyAlloc_map_fst] at hx
          exact absurd (List.mem_map_of_mem PlanReq.store (hr ▸ hmem)) (hr ▸ hnd2.1)
        · exact ih _ _ hrem hnd2.2 r a a' h1 h2

lemma totalReq_sort (reqs : List PlanReq) : totalReq (sortReqs reqs) = totalReq reqs := by
  unfold totalReq sortReqs
  exact List.Perm.sum_eq (List.Perm.map _ (List.perm_insertionSort _ _))

/-- Every committed (row, allocation) pair of the per-product allocator is a
pair of the reference greedy allocation over the priority-sorted requests. -/
lemma mem_allocateProduct (W : Int) (reqs : List PlanReq) (p : PlanReq × Int)
    (hp : p ∈ allocateProduct W reqs) : p ∈ greedyAlloc W (sortReqs reqs) := by
  unfold allocateProduct at hp
  by_cases h : (totalReq reqs : Int) > W
  · rw [if_pos h, passes_eq_greedy] at hp
    exact hp
  · rw [if_neg h] at hp
    have hle : (totalReq (sortReqs reqs) : Int) ≤ W := by
      rw [totalReq_sort]; omega
    rw [greedyAlloc_full _ _ hle]
    rcases List.mem_map.mp hp with ⟨r, hr, hrp⟩
    exact List.mem_map.mpr ⟨r, (List.mem_insertionSort _).mpr hr, hrp⟩

lemma sum_cast_requested (reqs : List PlanReq) :
    (reqs.map (fun r => (r.requested : Int))).sum = (totalReq reqs : Int) := by
  induction reqs with
  | nil => rfl
  | cons r rs ih => simp [totalReq, List.sum_cons, ih]

lemma greedyAlloc_le_requested (rs : List PlanReq) :
    ∀ W : Int, ∀ p ∈ greedyAlloc W rs, p.2 ≤ (p.1.requested : Int) := by
  induction rs with
  | nil => intro W p hp; cases hp
  | cons r rs ih =>
      intro W p hp
      simp only [greedyAlloc, List.mem_cons] at hp
      rcases hp with hp | hp
      · subst hp
        exact min_le_left _ _
      · exact ih _ p hp

lemma sum_map_zero (rs : List PlanReq) :
    (rs.map (fun _ : PlanReq => (0 : Int))).sum = 0 := by
  induction rs with
  | nil => rfl
  | cons r rs ih => simp [ih]

lemma greedyAlloc_sum_neg (rs : List PlanReq) (W : Int) (hW : W < 0)
    (hne : rs ≠ []) : ((greedyAlloc W rs).map Prod.snd).sum ≤ W := by
  cases rs with
  | nil => exact absurd rfl hne
  | cons r rs =>
      have hmin : min (r.requested : Int) W = W := by
        have : (0 : Int) ≤ (r.requested : Int) := Int.natCast_nonneg _
        omega
      have h0 : W - W = (0 : Int) := by omega
      simp only [greedyAlloc, hmin, h0, greedyAlloc_zero, List.map_cons,
        List.sum_cons, List.map_map]
      have hz : (Prod.snd ∘ fun s : PlanReq => (s, (0 : Int))) =
          fun _ : PlanReq => (0 : Int) := rfl
      rw [hz, sum_map_zero]
      omega

-- ----------------------------------------------------------------
-- Claim theorems: allocator
-- ----------------------------------------------------------------

/-- C1 (amended): for every committed allocation,
`allocated_ship_qty ≤ requested_ship_qty` holds unconditionally; provided the
warehouse on-hand read at the run is non-negative — as the data model assumes
— also `0 ≤ allocated_ship_qty`; and the per-product sum of allocations is at
most the warehouse on-hand whenever that on-hand is non-negative or the
product has at least one contending row (in particular for every
(run_date, product_id) with committed rows), including after the
post-exhaustion cleanup passes.  (Without the non-negativity proviso the
lower bound fails: see the counterexample.) -/
theorem c1_alloc_invariant (reqs : List PlanReq) (W : Int) :
    (∀ p ∈ allocateProduct W reqs, p.2 ≤ (p.1.requested : Int)) ∧
    (0 ≤ W → ∀ p ∈ allocateProduct W reqs, 0 ≤ p.2) ∧
    ((0 ≤ W ∨ reqs ≠ []) → ((allocateProduct W reqs).map Prod.snd).sum ≤ W) := by
  refine ⟨?_, ?_, ?_⟩
  · intro p hp
    exact greedyAlloc_le_requested _ _ p (mem_allocateProduct W reqs p hp)
  · intro hW p hp
    exact (greedyAlloc_bounds _ _ hW p (mem_allocateProduct W reqs p hp)).1
  · intro hor
    by_cases hW : 0 ≤ W
    · unfold allocateProduct
      by_cases h : (totalReq reqs : Int) > W
      · rw [if_pos h, passes_eq_greedy]
        exact greedyAlloc_sum _ _ hW
      · rw [if_neg h, List.map_map]
        have hc : (Prod.snd ∘ fun r : PlanReq => (r, (r.requested : Int))) =
            fun r : PlanReq => (r.requested : Int) := rfl
        rw [hc, sum_cast_requested]
        omega
    · have hne : reqs ≠ [] := by
        rcases hor with h | h
        · exact absurd h hW
        · exact h
      have hcont : (totalReq reqs : Int) > W := by
        have : (0 : Int) ≤ (totalReq reqs : Int) := Int.natCast_nonneg _
        omega
      unfold allocateProduct
      rw [if_pos hcont, passes_eq_greedy]
      refine greedyAlloc_sum_neg _ _ (by omega) ?_
      intro hnil
      apply hne
      have hperm := List.perm_insertionSort priorityGE reqs
      rw [show List.insertionSort priorityGE reqs = sortReqs reqs from rfl,
        hnil] at hperm
      exact List.Perm.eq_nil hperm.symm

/-- Witness for c1_alloc_invariant at warehouse stock 3 and one request of 5,
discharging the sum bound's side condition. -/
theorem c1_alloc_invariant_witness :
    ((0 : Int) ≤ 3 ∨ ([⟨0, 5, 1⟩] : List PlanReq) ≠ []) ∧
    ((allocateProduct 3 [⟨0, 5, 1⟩]).map Prod.snd).sum ≤ 3 :=
  ⟨Or.inl (by norm_num),
    (c1_alloc_invariant [⟨0, 5, 1⟩] 3).2.2 (Or.inl (by norm_num))⟩

/-- C1 counterexample: with a negative warehouse on-hand read from the
inventory table (a signed column; the engine itself flags negative stock
elsewhere), the single contending store is allocated the negative stock:
`allocated_ship_qty = -1 < 0`, violating the claimed lower bound as stated
"on every input". -/
theorem c1_alloc_invariant_cex :
    allocateProduct (-1) [⟨0, 5, 1⟩] = [(⟨0, 5, 1⟩, -1)] ∧ (-1 : Int) < 0 := by
  constructor
  · decide
  · norm_num

/-- C2: the per-product allocator computes exactly the reference allocation
of the spec — full allocation without contention, otherwise greedy assignment
over the stores sorted by priority descending (ties stable on input order) —
and on Scenario B (X requests 85 at priority 10.0, Y requests 40 at priority
6.0, warehouse 100) X is allocated 85 and Y is allocated 15. -/
theorem c2_allocator_matches_spec :
    (∀ (W : Int) (reqs : List PlanReq), allocateProduct W reqs = specAllocate W reqs) ∧
    allocateProduct 100 [⟨0, 85, 10⟩, ⟨1, 40, 6⟩] =
      [(⟨0, 85, 10⟩, 85), (⟨1, 40, 6⟩, 15)] := by
  constructor
  · intro W reqs
    unfold allocateProduct specAllocate
    by_cases h : (totalReq reqs : Int) ≤ W
    · rw [if_neg (by omega), if_pos h]
    · rw [if_pos (by omega), if_neg h, passes_eq_greedy]
  · decide

/-- C5 (code bug): the allocation committed for a store depends on the
enumeration order of the candidate rows, which the code takes from a
`SELECT DISTINCT` with no `ORDER BY`.  With two stores tied at priority 10.0
requesting 85 and 40 units of one product and warehouse stock 100, the two
possible result-set orders commit different rows: store 0 receives 85 in one
order and 60 in the other, so identical input data does not determine the
plan, contrary to the claim and to the spec's reproducibility requirement. -/
theorem c5_order_dependence :
    allocateProduct 100 [⟨0, 85, 10⟩, ⟨1, 40, 10⟩] =
      [(⟨0, 85, 10⟩, 85), (⟨1, 40, 10⟩, 15)] ∧
    allocateProduct 100 [⟨1, 40, 10⟩, ⟨0, 85, 10⟩] =
      [(⟨1, 40, 10⟩, 40), (⟨0, 85, 10⟩, 60)] := by
  constructor
  · decide
  · decide

/-- C7: allocation is monotone in warehouse stock — for a fixed set of store
requests for one product (stores pairwise distinct), increasing the warehouse
on-hand units never decreases any individual store's `allocated_ship_qty`. -/
theorem c7_alloc_monotone (reqs : List PlanReq) (W W' : Int) (hWW : W ≤ W')
    (hnd : (reqs.map PlanReq.store).Nodup) (r : PlanReq) (a a' : Int)
    (h1 : (r, a) ∈ allocateProduct W reqs) (h2 : (r, a') ∈ allocateProduct W' reqs) :
    a ≤ a' := by
  have hnd2 : ((sortReqs reqs).map PlanReq.store).Nodup := by
    have hperm : List.Perm ((sortReqs reqs).map PlanReq.store) (reqs.map PlanReq.store) :=
      List.Perm.map _ (List.perm_insertionSort _ _)
    exact (List.Perm.nodup_iff hperm).mpr hnd
  exact greedyAlloc_mem_mono (sortReqs reqs) W W' hWW hnd2 r a a'
    (mem_allocateProduct W reqs _ h1) (mem_allocateProduct W' reqs _ h2)

/-- Witness for c7_alloc_monotone: warehouse stock 50 vs 100 for requests
85 (priority 10.0) and 40 (priority 6.0); store 0 is allocated 50 then 85. -/
theorem c7_alloc_monotone_witness :
    ((50 : Int) ≤ 100 ∧
      (([⟨0, 85, 10⟩, ⟨1, 40, 6⟩] : List PlanReq).map PlanReq.store).Nodup ∧
      ((⟨0, 85, 10⟩, (50 : Int)) ∈ allocateProduct 50 [⟨0, 85, 10⟩, ⟨1, 40, 6⟩]) ∧
      ((⟨0, 85, 10⟩, (85 : Int)) ∈ allocateProduct 100 [⟨0, 85, 10⟩, ⟨1, 40, 6⟩])) ∧
    (50 : Int) ≤ 85 :=
  ⟨⟨by norm_num, by decide, by decide, by decide⟩,
    c7_alloc_monotone [⟨0, 85, 10⟩, ⟨1, 40, 6⟩] 50 100 (by norm_num) (by decide)
      ⟨0, 85, 10⟩ 50 85 (by decide) (by decide)⟩

-- ----------------------------------------------------------------
-- Demand estimation (snapshot mode and fallback mode)
-- ----------------------------------------------------------------

/-- One calendar day of the lookback window for one (store, product) pair:
`qtys` are the quantities of the day's non-cancelled transaction items
(empty when the day had no transactions), `snap` is the inventory snapshot's
`quantity_on_hand` for that day when a snapshot row exists. -/
structure DayData where
  qtys : List ℚ
  snap : Option Int
deriving DecidableEq, Repr

/-- The row the snapshot-mode SQL produces for one day
(`_batch_get_daily_sales_snapshot`, lines 243-262): the day's transaction
items are inner-joined with the day's snapshot, kept only when
`snap.quantity_on_hand > 0`, and summed; a day with no transaction items
yields no row. -/
def sqlSnapshotRow (d : DayData) : Option ℚ :=
  match d.snap with
  | none => none
  | some q => if 0 < q ∧ d.qtys ≠ [] then some d.qtys.sum else none

/-- The snapshot-mode daily series a pair receives (lines 269-277): the SQL
rows, then the client-side filter keeping only days whose total is `> 0`. -/
def snapshotSeries (days : List DayData) : List ℚ :=
  (days.filterMap sqlSnapshotRow).filter (fun q => decide (0 < q))

/-- The series the claim describes, written from the spec's words: a day's
total quantity sold is included iff a snapshot exists for that day and its
`quantity_on_hand > 0`. -/
def claimSnapshotSeries (days : List DayData) : List ℚ :=
  days.filterMap (fun d =>
    match d.snap with
    | none => none
    | some q => if 0 < q then some d.qtys.sum else none)

/-- Median as computed by Python's `statistics.median`: sort, take the middle
element for odd length, the mean of the two middle elements for even length
(0 for the empty list, a case the caller guards). -/
def medianQ (l : List ℚ) : ℚ :=
  let s := List.insertionSort (· ≤ ·) l
  if s.length = 0 then 0
  else if s.length % 2 = 1 then s.getD (s.length / 2) 0
  else (s.getD (s.length / 2 - 1) 0 + s.getD (s.length / 2) 0) / 2

/-- `avg_daily_sales` (lines 370-374): the median of the pair's daily series,
0 when the series is empty. -/
def avgDailySales (sales : List ℚ) : ℚ :=
  if sales = [] then 0 else medianQ sales

/-- The fallback-mode client-side filter (lines 228-234): a day's total
enters the series only when it is `> 0`. -/
def fallbackQualify (totals : List ℚ) : List ℚ :=
  totals.filter (fun q => decide (0 < q))

/-- The fallback-mode `avg_daily_sales` for a pair, as the run computes it:
median of the qualifying daily totals. -/
def fallbackAvgDaily (totals : List ℚ) : ℚ :=
  avgDailySales (fallbackQualify totals)

-- ----------------------------------------------------------------
-- Claim theorems: demand estimation
-- ----------------------------------------------------------------

lemma filterMap_ext {α β : Type} (f g : α → Option β) (h : ∀ d, f d = g d)
    (l : List α) : l.filterMap f = l.filterMap g := by
  induction l with
  | nil => rfl
  | cons d ds ih => simp [List.filterMap_cons, h d, ih]

lemma filter_after_filterMap {α β : Type} (p : β → Bool) (f : α → Option β)
    (l : List α) :
    (l.filterMap f).filter p = l.filterMap (fun d =>
      match f d with
      | none => none
      | some b => if p b = true then some b else none) := by
  induction l with
  | nil => rfl
  | cons d ds ih =>
      cases hf : f d with
      | none => simp [List.filterMap_cons, hf, ih]
      | some b =>
          by_cases hp : p b = true
          · simp [List.filterMap_cons, hf, hp, List.filter_cons, ih]
          · simp [List.filterMap_cons, hf, hp, List.filter_cons, ih]

/-- C3 (amended): in snapshot mode, a day's total quantity sold is included
in the demand series iff a snapshot exists for that (store, product, day)
with `quantity_on_hand > 0` AND the day's total quantity sold is itself
positive — days with no (or non-positive) recorded sales are excluded as
well as days with zero recorded stock. -/
theorem c3_snapshot_series (days : List DayData) :
    snapshotSeries days = days.filterMap (fun d =>
      match d.snap with
      | none => none
      | some q => if 0 < q ∧ 0 < d.qtys.sum then some d.qtys.sum else none) := by
  unfold snapshotSeries
  rw [filter_after_filterMap]
  apply filterMap_ext
  intro d
  cases hs : d.snap with
  | none => simp [sqlSnapshotRow, hs]
  | some q =>
      by_cases h1 : 0 < q ∧ d.qtys ≠ []
      · by_cases h2 : 0 < d.qtys.sum
        · simp [sqlSnapshotRow, hs, h1, h2, h1.1]
        · simp [sqlSnapshotRow, hs, h1, h2]
      · rcases not_and_or.mp h1 with hq | hq
        · have hcond : ¬(0 < q ∧ 0 < d.qtys.sum) := fun hc => hq hc.1
          simp [sqlSnapshotRow, hs, h1, hcond]
        · have hnil : d.qtys = [] := not_not.mp hq
          have hsum : d.qtys.sum = 0 := by rw [hnil]; rfl
          have hcond : ¬(0 < q ∧ 0 < d.qtys.sum) := by
            rw [hsum]; rintro ⟨-, hc⟩; exact lt_irrefl 0 hc
          simp [sqlSnapshotRow, hs, h1, hcond]

/-- C3 counterexample: a day with a positive-stock snapshot (`quantity_on_hand
= 5`) but no sales.  The claim includes that day's total (0) in the series;
the code produces no row for it (the sales join is an inner join and the
client filter drops non-positive totals). -/
theorem c3_snapshot_series_cex :
    snapshotSeries [⟨[], some 5⟩] = [] ∧ claimSnapshotSeries [⟨[], some 5⟩] = [0] := by
  constructor
  · decide
  · decide

/-- C8 (amended): `avg_daily_sales` is the median of the qualifying daily
totals and 0 when no day qualifies; in fallback mode a day qualifies exactly
when its total sales are positive (not merely nonzero); the series
[0,0,5,6,0,4] qualifies as [5,6,4] with median 5. -/
theorem c8_median_fallback :
    (∀ totals : List ℚ, fallbackAvgDaily totals = medianQ (fallbackQualify totals)) ∧
    (∀ totals : List ℚ, fallbackQualify totals = [] → fallbackAvgDaily totals = 0) ∧
    (∀ (totals : List ℚ) (q : ℚ), q ∈ fallbackQualify totals ↔ q ∈ totals ∧ 0 < q) ∧
    (fallbackQualify [0, 0, 5, 6, 0, 4] = [5, 6, 4] ∧
      fallbackAvgDaily [0, 0, 5, 6, 0, 4] = 5 ∧ medianQ [5, 6, 4] = 5) := by
  refine ⟨?_, ?_, ?_, ?_, ?_, ?_⟩
  · intro t
    unfold fallbackAvgDaily avgDailySales
    by_cases h : fallbackQualify t = []
    · rw [if_pos h, h]; rfl
    · rw [if_neg h]
  · intro t h
    unfold fallbackAvgDaily avgDailySales
    rw [if_pos h]
  · intro t q
    simp [fallbackQualify, List.mem_filter]
  · decide
  · decide
  · decide

/-- Witness for c8_median_fallback: a single zero-sales day qualifies
nowhere, and the resulting average is 0. -/
theorem c8_median_fallback_witness :
    fallbackQualify [(0 : ℚ)] = [] ∧ fallbackAvgDaily [(0 : ℚ)] = 0 :=
  ⟨by decide, c8_median_fallback.2.1 [(0 : ℚ)] (by decide)⟩

/-- C8 counterexample: a day with a nonzero (negative) total does not
qualify, contradicting "a day qualifies exactly when its total sales are
nonzero": the code's average is 0 while the median of the nonzero-total days
would be -2. -/
theorem c8_median_fallback_cex :
    fallbackQualify [(-2 : ℚ)] = [] ∧ fallbackAvgDaily [(-2 : ℚ)] = 0 ∧
      medianQ [(-2 : ℚ)] = -2 ∧ ((-2 : ℚ) ≠ 0) := by
  refine ⟨by decide, by decide, by decide, by decide⟩

-- ----------------------------------------------------------------
-- Per-pair shipment plan computation
-- ----------------------------------------------------------------

/-- A store's tier parameters (`store_tiers` row / `tier_cache` entry). -/
structure TierParams where
  safety_days : Int
  target_cover_days : Int
  expiry_window_days : Int
deriving DecidableEq, Repr

/-- The Tier-B defaults used when a store has no configured tier
(source lines 360-365). -/
def defaultTier : TierParams := ⟨3, 7, 60⟩

/-- The preloaded inputs for one (store, product) pair inside the run:
`on_hand` from the inventory row, the optional tier-cache entry, the
pair's daily-sales series from the sales cache (already filtered by the
mode's qualification rule; absent pairs get `[]`), and the optional
pipeline `on_order_units`. -/
structure PairInput where
  on_hand : Int
  tier : Option TierParams
  daily_sales : List ℚ
  on_order : Option Int
deriving DecidableEq, Repr

/-- The quantities computed for one plan row (source lines 354-445),
before the two- and four-decimal rounding applied at persistence; rounding
plays no part in the claims, which address the computed values. -/
structure PlanCalc where
  avg_daily_sales : ℚ
  season_adjusted_daily_sales : ℚ
  safety_stock : ℚ
  min_level : ℚ
  max_level : ℚ
  expiry_cap : ℚ
  final_max : ℚ
  on_hand : Int
  on_order : Int
  inventory_position : Int
  requested_ship_qty : Int
  days_of_stock : ℚ
  stockout_risk : ℚ
  priority_score : ℚ
deriving DecidableEq, Repr

/-- `COVER_DAYS = REVIEW_PERIOD_DAYS + LEAD_TIME_DAYS = 7 + 2`. -/
def COVER_DAYS : Int := 7 + 2

/-- The per-pair computation of `run_replenishment_calculation`
(source lines 354-445): tier defaults, median daily sales, seasonality,
stock levels, requested quantity, and the skip of zero-request pairs
(`continue` at line 403, so such pairs produce no plan row). -/
def computePair (mult : ℚ) (inp : PairInput) : Option PlanCalc :=
  let tp := inp.tier.getD defaultTier
  let avg := avgDailySales inp.daily_sales
  let s := avg * mult
  let ss := s * (tp.safety_days : ℚ)
  let minL := s * (COVER_DAYS : ℚ) + ss
  let maxL := minL + s * (tp.target_cover_days : ℚ)
  let cap := s * (tp.expiry_window_days : ℚ)
  let fm := min maxL cap
  let oo := inp.on_order.getD 0
  let pos := inp.on_hand + oo
  let req : Int := max 0 (Int.ceil (fm - (pos : ℚ)))
  if req = 0 then none
  else
    let dos : ℚ :=
      if 0 < s ∨ 0 < inp.on_hand then (inp.on_hand : ℚ) / max s (1/10) else 0
    let risk : ℚ := 1 / max dos (1/10)
    some {
      avg_daily_sales := avg
      season_adjusted_daily_sales := s
      safety_stock := ss
      min_level := minL
      max_level := maxL
      expiry_cap := cap
      final_max := fm
      on_hand := inp.on_hand
      on_order := oo
      inventory_position := pos
      requested_ship_qty := req
      days_of_stock := dos
      stockout_risk := risk
      priority_score := s * (6/10) + risk * (4/10)
    }

/-- Scenario A input: on_hand 10, on_order 0, daily series [5] (median 5),
multiplier 1, tier (3, 7, 60). -/
def scenarioInput : PairInput := ⟨10, some ⟨3, 7, 60⟩, [5], some 0⟩

/-- The row Scenario A computes: safety 15, min 60, max 95, cap 300,
final 95, requested 85, days of stock 2, risk 1/2, priority 16/5. -/
def scenarioRow : PlanCalc := ⟨5, 5, 15, 60, 95, 300, 95, 10, 0, 10, 85, 2, 1/2, 16/5⟩

lemma risk_bounds (dos s : ℚ) :
    (1/10 : ℚ) ≤ max s (1/10) ∧ (1/10 : ℚ) ≤ max dos (1/10) ∧
    0 < 1 / max dos (1/10) ∧ 1 / max dos (1/10) ≤ 10 ∧
    s * (6/10) + (1 / max dos (1/10)) * (4/10) ≤ (6/10) * s + 4 := by
  have hmax : (1/10 : ℚ) ≤ max dos (1/10) := le_max_right _ _
  have hpos : (0 : ℚ) < max dos (1/10) := lt_of_lt_of_le (by norm_num) hmax
  have h1 : 0 < 1 / max dos (1/10) := one_div_pos.mpr hpos
  have h2 : 1 / max dos (1/10) ≤ 10 := by
    rw [div_le_iff₀ hpos]
    linarith
  refine ⟨le_max_right _ _, hmax, h1, h2, ?_⟩
  nlinarith [h2]

-- ----------------------------------------------------------------
-- Claim theorems: shipment planner
-- ----------------------------------------------------------------

/-- C6: the stock-level formulas of the planner — safety stock, min/max
levels, expiry cap, final max, requested quantity — together with
`min_level ≤ max_level`, the omission of zero-request pairs, and the
Scenario A values. -/
theorem c6_stock_level_formulas :
    (∀ (mult : ℚ) (inp : PairInput) (row : PlanCalc),
      computePair mult inp = some row →
      0 ≤ row.season_adjusted_daily_sales →
      0 ≤ (inp.tier.getD defaultTier).safety_days →
      0 ≤ (inp.tier.getD defaultTier).target_cover_days →
      0 ≤ (inp.tier.getD defaultTier).expiry_window_days →
      (row.safety_stock =
          row.season_adjusted_daily_sales * ((inp.tier.getD defaultTier).safety_days : ℚ) ∧
        row.min_level = row.season_adjusted_daily_sales * 9 + row.safety_stock ∧
        row.max_level = row.min_level +
          row.season_adjusted_daily_sales * ((inp.tier.getD defaultTier).target_cover_days : ℚ) ∧
        row.expiry_cap =
          row.season_adjusted_daily_sales * ((inp.tier.getD defaultTier).expiry_window_days : ℚ) ∧
        row.final_max = min row.max_level row.expiry_cap ∧
        row.inventory_position = row.on_hand + row.on_order ∧
        row.requested_ship_qty =
          max 0 (Int.ceil (row.final_max - (row.inventory_position : ℚ))) ∧
        row.min_level ≤ row.max_level ∧
        0 < row.requested_ship_qty)) ∧
    computePair 1 scenarioInput = some scenarioRow := by
  constructor
  · intro mult inp row h hs h1 h2 h3
    simp only [computePair] at h
    split at h
    · exact Option.noConfusion h
    · rename_i hreq
      have hr := Option.some.inj h
      subst hr
      dsimp only at hs ⊢
      refine ⟨rfl, ?_, rfl, rfl, rfl, rfl, rfl, ?_, ?_⟩
      · have hc : ((COVER_DAYS : Int) : ℚ) = 9 := by norm_num [COVER_DAYS]
        rw [hc]
      · have htcd : (0 : ℚ) ≤ ((inp.tier.getD defaultTier).target_cover_days : ℚ) := by
          exact_mod_cast h2
        nlinarith [mul_nonneg hs htcd]
      · exact lt_of_le_of_ne (le_max_left 0 _) (Ne.symm hreq)
  · have hmed : avgDailySales (scenarioInput.daily_sales) = 5 := by decide
    unfold computePair
    rw [hmed]
    norm_num [scenarioInput, scenarioRow, COVER_DAYS]

/-- Witness for c6_stock_level_formulas: a pair with no sales history and
negative on-hand still yields a row, whose requested quantity is positive. -/
theorem c6_stock_level_formulas_witness :
    computePair 1 ⟨-1, none, [], none⟩ =
        some ⟨0, 0, 0, 0, 0, 0, 0, -1, 0, -1, 1, 0, 10, 4⟩ ∧
    (0 : Int) < (⟨0, 0, 0, 0, 0, 0, 0, -1, 0, -1, 1, 0, 10, 4⟩ : PlanCalc).requested_ship_qty := by
  have hcp : computePair 1 ⟨-1, none, [], none⟩ =
      some ⟨0, 0, 0, 0, 0, 0, 0, -1, 0, -1, 1, 0, 10, 4⟩ := by
    unfold computePair
    norm_num [avgDailySales, defaultTier, COVER_DAYS]
  exact ⟨hcp, (c6_stock_level_formulas.1 1 ⟨-1, none, [], none⟩ _ hcp (by decide)
    (by decide) (by decide) (by decide)).2.2.2.2.2.2.2.2⟩

/-- C9 (amended): `days_of_stock` equals `on_hand / max(s, 0.1)` only when
`s > 0` or `on_hand > 0`; in the remaining case (`s = 0` and `on_hand ≤ 0`,
reachable with negative stock) the code stores `days_of_stock = 0` instead;
`stockout_risk = 1 / max(days_of_stock, 0.1)` holds for every row. -/
theorem c9_days_of_stock (mult : ℚ) (inp : PairInput) (row : PlanCalc)
    (h : computePair mult inp = some row) :
    ((0 < row.season_adjusted_daily_sales ∨ 0 < row.on_hand) →
      row.days_of_stock =
        (row.on_hand : ℚ) / max row.season_adjusted_daily_sales (1/10)) ∧
    (¬(0 < row.season_adjusted_daily_sales ∨ 0 < row.on_hand) →
      row.days_of_stock = 0) ∧
    row.stockout_risk = 1 / max row.days_of_stock (1/10) := by
  simp only [computePair] at h
  split at h
  · exact Option.noConfusion h
  · have hr := Option.some.inj h
    subst hr
    dsimp only
    refine ⟨fun hc => ?_, fun hc => ?_, rfl⟩
    · rw [if_pos hc]
    · rw [if_neg hc]

/-- Witness for c9_days_of_stock at the Scenario A row. -/
theorem c9_days_of_stock_witness :
    computePair 1 scenarioInput = some scenarioRow ∧
    scenarioRow.stockout_risk = 1 / max scenarioRow.days_of_stock (1/10) := by
  have hcp : computePair 1 scenarioInput = some scenarioRow := by
    have hmed : avgDailySales (scenarioInput.daily_sales) = 5 := by decide
    unfold computePair
    rw [hmed]
    norm_num [scenarioInput, scenarioRow, COVER_DAYS]
  exact ⟨hcp, (c9_days_of_stock 1 scenarioInput scenarioRow hcp).2.2⟩

/-- C9 counterexample: the pair with no demand history (`s = 0`) and
`on_hand = -5` produces a plan row whose `days_of_stock` is 0, while the
claimed formula `on_hand / max(s, 0.1)` evaluates to -50. -/
theorem c9_days_of_stock_cex :
    computePair 1 ⟨-5, none, [], none⟩ =
        some ⟨0, 0, 0, 0, 0, 0, 0, -5, 0, -5, 5, 0, 10, 4⟩ ∧
    ((-5 : ℚ) / max 0 (1/10) = -50) ∧ ((0 : ℚ) ≠ -50) := by
  refine ⟨?_, by norm_num, by norm_num⟩
  unfold computePair
  norm_num [avgDailySales, defaultTier, COVER_DAYS]

lemma risk_bounds_guarded (dos s : ℚ) (oh : Int) :
    (1/10 : ℚ) ≤ max s (1/10) ∧ (1/10 : ℚ) ≤ max dos (1/10) ∧
    (0 ≤ oh →
      0 < 1 / max dos (1/10) ∧ 1 / max dos (1/10) ≤ 10 ∧
      s * (6/10) + (1 / max dos (1/10)) * (4/10) ≤ (6/10) * s + 4) := by
  have rb := risk_bounds dos s
  exact ⟨rb.1, rb.2.1, fun _ => ⟨rb.2.2.1, rb.2.2.2.1, rb.2.2.2.2⟩⟩

/-- C10: the two division denominators are bounded below by 0.1 on every
emitted plan row — no sign condition on `on_hand` — so the divisions are
total; and for plan rows with `on_hand ≥ 0`, `stockout_risk` lies in (0, 10]
and `priority_score ≤ 0.6 × season_adjusted_daily_sales + 4`. -/
theorem c10_division_total (mult : ℚ) (inp : PairInput) (row : PlanCalc)
    (h : computePair mult inp = some row) :
    (1/10 : ℚ) ≤ max row.season_adjusted_daily_sales (1/10) ∧
    (1/10 : ℚ) ≤ max row.days_of_stock (1/10) ∧
    (0 ≤ row.on_hand →
      0 < row.stockout_risk ∧ row.stockout_risk ≤ 10 ∧
      row.priority_score ≤ (6/10) * row.season_adjusted_daily_sales + 4) := by
  simp only [computePair] at h
  split at h
  · exact Option.noConfusion h
  · have hr := Option.some.inj h
    subst hr
    exact risk_bounds_guarded _ _ _

/-- Witness for c10_division_total at the Scenario A row: the first
denominator bound, and the risk positivity under the row's non-negative
on-hand. -/
theorem c10_division_total_witness :
    (computePair 1 scenarioInput = some scenarioRow ∧
      (0 : Int) ≤ scenarioRow.on_hand) ∧
    ((1/10 : ℚ) ≤ max scenarioRow.season_adjusted_daily_sales (1/10) ∧
      (0 : ℚ) < scenarioRow.stockout_risk) := by
  have hcp : computePair 1 scenarioInput = some scenarioRow := by
    have hmed : avgDailySales (scenarioInput.daily_sales) = 5 := by decide
    unfold computePair
    rw [hmed]
    norm_num [scenarioInput, scenarioRow, COVER_DAYS]
  exact ⟨⟨hcp, by decide⟩,
    ⟨(c10_division_total 1 scenarioInput scenarioRow hcp).1,
      ((c10_division_total 1 scenarioInput scenarioRow hcp).2.2 (by decide)).1⟩⟩

-- ----------------------------------------------------------------
-- Atomic plan replacement
-- ----------------------------------------------------------------

/-- A committed ShipmentPlan row as the replacement step sees it: its key
(run_date, store, sku) plus a payload standing for all computed fields. -/
structure StoredPlan where
  run_date : Nat
  store_id : Nat
  sku_id : Nat
  payload : Int
deriving DecidableEq, Repr

/-- The delete predicate of the run (source lines 344-347): rows with the
run's `run_date`, further restricted to `store_id` when the run is filtered
to one store. -/
def deleteMatches (d : Nat) (sf : Option Nat) (r : StoredPlan) : Bool :=
  r.run_date = d && (match sf with
  | none => true
  | some s => r.store_id = s)

/-- Modelled from the spec: the transaction wrapper around the run
(`app.core.database.get_db`, whose module is not part of the sources here)
commits the session's work as one atomic unit per spec 4.7 step 7 — the
delete of the existing rows for (run_date[, store_id]) (source lines
343-347) and the insert of the newly computed rows (source lines 480-482)
either both take effect, or, when the run fails (`Except.error`), the
previously committed state is left unchanged. -/
def commitRun (prev : List StoredPlan) (d : Nat) (sf : Option Nat)
    (result : Except Unit (List StoredPlan)) : List StoredPlan :=
  match result with
  | Except.error _ => prev
  | Except.ok rows => prev.filter (fun r => ! deleteMatches d sf r) ++ rows

-- ----------------------------------------------------------------
-- Claim theorems: atomic replacement
-- ----------------------------------------------------------------

/-- C4: a run's replacement of the ShipmentPlan rows is atomic — on any
failure the previously committed state is returned unchanged, and on success
the committed state consists exactly of the previous rows outside the
(run_date[, store_id]) key together with the newly computed rows; no other
outcome exists. -/
theorem c4_atomic_replace (prev : List StoredPlan) (d : Nat) (sf : Option Nat)
    (rows : List StoredPlan) :
    commitRun prev d sf (Except.error ()) = prev ∧
    (∀ r : StoredPlan, r ∈ commitRun prev d sf (Except.ok rows) ↔
      ((r ∈ prev ∧ deleteMatches d sf r = false) ∨ r ∈ rows)) := by
  constructor
  · rfl
  · intro r
    simp [commitRun, List.mem_append, List.mem_filter]
